import Mathlib

/-!
Verification of the price-prediction pipeline in `fynesse/address.py`.

The Python source is shallowly embedded in Lean 4:

* real (floating-point) arithmetic is modelled exactly over `ℚ`;
* numpy arrays and pandas frames are modelled as Lean lists;
* IEEE-754 special values that the source can silently produce
  (`inf`, `nan` from division by a zero price) are modelled by the
  inductive type `PyVal`;
* code that can raise a Python exception is modelled with
  `Except`/`Option`; total numerical code is modelled by total functions.

Each claim theorem is stated over these embedded definitions.
-/

/-! ### numpy / pandas primitives

`np.argmax` on a boolean array returns the index of the first `True`
entry, and `0` when every entry is `False` (the maximum is then `False`,
first attained at index 0).  `Series.idxmax` on a boolean mask over a
`reset_index`-ed frame behaves identically (labels are positions).
-/

/-- Model of `np.argmax` on a boolean array / `Series.idxmax` on a boolean
mask: index of the first `true`, and `0` if no entry is `true`. -/
def argmaxBool : List Bool → ℕ
  | [] => 0
  | b :: bs => if b then 0 else if bs.any (fun x => x) then argmaxBool bs + 1 else 0

/-- Model of `np.cumsum`: entry `i` is the sum of the first `i + 1` entries. -/
def cumsum (l : List ℚ) : List ℚ :=
  (List.range l.length).map (fun i => (l.take (i + 1)).sum)

theorem cumsum_length (l : List ℚ) : (cumsum l).length = l.length := by
  simp [cumsum]

theorem cumsum_getElem (l : List ℚ) (i : ℕ) (h : i < (cumsum l).length) :
    getElem (cumsum l) i h = (l.take (i + 1)).sum := by
  simp [cumsum]

/-- If some entry of `bs` is `true`, then `argmaxBool bs` is the position of
the first `true`: the entry there is `true` and every earlier entry is
`false`. -/
theorem argmaxBool_first_true (bs : List Bool)
    (h : bs.any (fun x => x) = true) :
    ∃ hk : argmaxBool bs < bs.length,
      bs.get ⟨argmaxBool bs, hk⟩ = true ∧
      ∀ j (hj : j < bs.length), j < argmaxBool bs → bs.get ⟨j, hj⟩ = false := by
  induction bs with
  | nil => simp at h
  | cons b bs ih =>
    by_cases hb : b = true
    · subst hb
      refine ⟨by simp [argmaxBool], by simp [argmaxBool], ?_⟩
      intro j hj hlt
      simp [argmaxBool] at hlt
    · have hb' : b = false := by simpa using hb
      subst hb'
      have hany : bs.any (fun x => x) = true := by simpa using h
      obtain ⟨hk, htrue, hfalse⟩ := ih hany
      have harg : argmaxBool (false :: bs) = argmaxBool bs + 1 := by
        simp [argmaxBool, hany]
      refine ⟨by simpa [harg] using Nat.succ_lt_succ hk, ?_, ?_⟩
      · simpa [harg] using htrue
      · intro j hj hlt
        rw [harg] at hlt
        match j with
        | 0 => simp
        | j + 1 =>
          have hj' : j < bs.length := by simpa using hj
          exact hfalse j hj' (Nat.lt_of_succ_lt_succ hlt)

/-- If every entry of `bs` is `false`, `argmaxBool bs = 0` (numpy returns
the first index of the maximal value `False`). -/
theorem argmaxBool_all_false (bs : List Bool)
    (h : ∀ b ∈ bs, b = false) : argmaxBool bs = 0 := by
  cases bs with
  | nil => rfl
  | cons b bs =>
    have hb : b = false := h b (by simp)
    have hany : bs.any (fun x => x) = false := by
      simp only [List.any_eq_false]
      intro x hx
      simp [h x (by simp [hx])]
    simp [argmaxBool, hb, hany]

/-! ### FeatureCompressor: component-count selection

`convert_to_principle_components` (src/fynesse/address.py, lines 83-95)
fits a PCA on the correlation matrix and then selects the number of
components kept:

    explained_variance = np.cumsum(pca.explained_variance_ratio_)
    cutoff = np.argmax(explained_variance > threshold) + 1

The PCA eigendecomposition itself produces irrational eigenvalues and is
abstracted: the list `evr` of explained-variance ratios is the input of
the embedded selection logic, which is modelled verbatim.
-/

/-- Model of the `cutoff` computation in `convert_to_principle_components`:
`np.argmax(np.cumsum(evr) > threshold) + 1`. -/
def cutoff (evr : List ℚ) (threshold : ℚ) : ℕ :=
  argmaxBool ((cumsum evr).map (fun q => decide (threshold < q))) + 1

/-- C1: whenever some cumulative explained-variance ratio strictly exceeds
the threshold (as holds whenever the PCA is defined, since the full set of
ratios sums to 1 > 0.95), the selected component count `k = cutoff` is the
smallest count whose cumulative explained variance strictly exceeds the
threshold: the cumulative sum of the first `k` ratios exceeds the
threshold and the cumulative sum of the first `j` ratios, for every
`0 < j < k` (in particular `j = k - 1`), does not. -/
theorem cutoff_is_least_exceeding (evr : List ℚ) (t : ℚ)
    (h : ∃ j, j < evr.length ∧ t < (evr.take (j + 1)).sum) :
    t < (evr.take (cutoff evr t)).sum ∧
      ∀ j, 0 < j → j < cutoff evr t → (evr.take j).sum ≤ t := by
  set bs : List Bool := (cumsum evr).map (fun q => decide (t < q)) with hbs
  have hblen : bs.length = evr.length := by simp [hbs, cumsum_length]
  have hget : ∀ (i : ℕ) (hi : i < bs.length),
      bs.get ⟨i, hi⟩ = decide (t < (evr.take (i + 1)).sum) := by
    intro i hi
    have hi' : i < (cumsum evr).length := by
      simpa [hbs] using hi
    simp [hbs, cumsum_getElem]
  have hany : bs.any (fun x => x) = true := by
    obtain ⟨j, hj, hjt⟩ := h
    have hj' : j < bs.length := by simpa [hblen] using hj
    have hjtrue : bs.get ⟨j, hj'⟩ = true := by
      rw [hget j hj']
      simpa using hjt
    rw [List.any_eq_true]
    exact ⟨bs.get ⟨j, hj'⟩, List.get_mem bs j hj', by simpa using hjtrue⟩
  obtain ⟨hk, htrue, hfalse⟩ := argmaxBool_first_true bs hany
  constructor
  · have := hget (argmaxBool bs) hk
    rw [this] at htrue
    have : t < (evr.take (argmaxBool bs + 1)).sum := by simpa using htrue
    simpa [cutoff, hbs] using this
  · intro j hj0 hjcut
    have hjlt : j - 1 < argmaxBool bs := by
      have : j < argmaxBool bs + 1 := by simpa [cutoff, hbs] using hjcut
      omega
    have hjlen : j - 1 < bs.length := lt_trans hjlt hk
    have := hfalse (j - 1) hjlen hjlt
    rw [hget (j - 1) hjlen] at this
    have hnot : ¬ t < (evr.take (j - 1 + 1)).sum := by simpa using this
    have hj1 : j - 1 + 1 = j := by omega
    rw [hj1] at hnot
    exact le_of_not_lt hnot

/-- Witness for C1 at a concrete input: ratios `[3/5, 3/10, 1/10]` with the
default threshold `19/20 = 0.95`; the cumulative sums are
`[3/5, 9/10, 1]`, so the selected count is 3, the cumulative sum at 3
exceeds the threshold and at 1 and 2 it does not. -/
theorem cutoff_is_least_exceeding_witness :
    (∃ j, j < ([(3 : ℚ)/5, 3/10, 1/10]).length ∧
        (19 : ℚ)/20 < (([(3 : ℚ)/5, 3/10, 1/10]).take (j + 1)).sum) ∧
      ((19 : ℚ)/20 < (([(3 : ℚ)/5, 3/10, 1/10]).take (cutoff [(3 : ℚ)/5, 3/10, 1/10] (19/20))).sum ∧
        ∀ j, 0 < j → j < cutoff [(3 : ℚ)/5, 3/10, 1/10] (19/20) →
          (([(3 : ℚ)/5, 3/10, 1/10]).take j).sum ≤ (19 : ℚ)/20) :=
  ⟨⟨2, by norm_num [List.take_succ_cons, List.sum_cons]⟩,
    cutoff_is_least_exceeding [(3 : ℚ)/5, 3/10, 1/10] (19/20)
      ⟨2, by norm_num [List.take_succ_cons, List.sum_cons]⟩⟩

/-! ### Data model: one retrieved transaction row

One row of the `prices_coordinates_data` sample table.  Calendar dates
are modelled as integers (day ordinals) with exact equality, and the
categorical codes (`property_type`, `new_build_flag`, `tenure_type`) as
characters, as in the CSV-derived frame.
-/

/-- One sample row of the retrieved training table. -/
structure SampleRow where
  latitude : ℚ
  longitude : ℚ
  date_of_transfer : ℤ
  property_type : Char
  price : ℚ
  new_build_flag : Char
  tenure_type : Char
deriving DecidableEq

/-- The boolean target mask of `predict_price` (src line 21):
`samples.latitude.between(latitude-1e-7, latitude+1e-7)
 & samples.longitude.between(longitude-1e-7, longitude+1e-7)
 & (samples.date_of_transfer == date)
 & (samples.property_type == property_type)`.
`Series.between` is inclusive on both ends. -/
def matchesTarget (lat lon : ℚ) (d : ℤ) (pt : Char) (r : SampleRow) : Bool :=
  (decide (lat - 1/10000000 ≤ r.latitude) && decide (r.latitude ≤ lat + 1/10000000)) &&
  (decide (lon - 1/10000000 ≤ r.longitude) && decide (r.longitude ≤ lon + 1/10000000)) &&
  decide (r.date_of_transfer = d) &&
  decide (r.property_type = pt)

/-- The `target_id` computation of `predict_price` (src line 21): `idxmax`
of the boolean target mask over the (position-indexed) sample table. -/
def target_id (lat lon : ℚ) (d : ℤ) (pt : Char) (rows : List SampleRow) : ℕ :=
  argmaxBool (rows.map (matchesTarget lat lon d pt))

theorem target_id_get_true (lat lon : ℚ) (d : ℤ) (pt : Char) (rows : List SampleRow)
    (h : ∃ r ∈ rows, matchesTarget lat lon d pt r = true) :
    ∃ hk : target_id lat lon d pt rows < rows.length,
      matchesTarget lat lon d pt (rows.get ⟨target_id lat lon d pt rows, hk⟩) = true := by
  set bs : List Bool := rows.map (matchesTarget lat lon d pt) with hbs
  have hany : bs.any (fun x => x) = true := by
    rw [List.any_eq_true]
    obtain ⟨r, hr, hrt⟩ := h
    exact ⟨matchesTarget lat lon d pt r, List.mem_map_of_mem _ hr, by simpa using hrt⟩
  obtain ⟨hk, htrue, _⟩ := argmaxBool_first_true bs hany
  have hklen : target_id lat lon d pt rows < rows.length := by
    have : bs.length = rows.length := by simp [hbs]
    rw [target_id, ← hbs, ← this]
    exact hk
  refine ⟨hklen, ?_⟩
  have hgetmap : bs.get ⟨argmaxBool bs, hk⟩ =
      matchesTarget lat lon d pt (rows.get ⟨argmaxBool bs, by simpa [hbs] using hk⟩) := by
    simp [hbs]
  rw [hgetmap] at htrue
  exact htrue

/-- C3: if some retrieved row satisfies the target mask, then the row at
the selected index `target_id` has latitude and longitude within `1e-7`
degrees of the request and exactly the requested transfer date and
property type; moreover no row whose transfer date differs from the
requested date (however close its coordinates) is ever the selected row. -/
theorem target_id_selects_matching_row (lat lon : ℚ) (d : ℤ) (pt : Char)
    (rows : List SampleRow)
    (h : ∃ r ∈ rows, matchesTarget lat lon d pt r = true) :
    ∃ hk : target_id lat lon d pt rows < rows.length,
      (lat - 1/10000000 ≤ (rows.get ⟨target_id lat lon d pt rows, hk⟩).latitude ∧
       (rows.get ⟨target_id lat lon d pt rows, hk⟩).latitude ≤ lat + 1/10000000 ∧
       lon - 1/10000000 ≤ (rows.get ⟨target_id lat lon d pt rows, hk⟩).longitude ∧
       (rows.get ⟨target_id lat lon d pt rows, hk⟩).longitude ≤ lon + 1/10000000 ∧
       (rows.get ⟨target_id lat lon d pt rows, hk⟩).date_of_transfer = d ∧
       (rows.get ⟨target_id lat lon d pt rows, hk⟩).property_type = pt) ∧
      ∀ j (hj : j < rows.length), (rows.get ⟨j, hj⟩).date_of_transfer ≠ d →
        target_id lat lon d pt rows ≠ j := by
  obtain ⟨hk, htrue⟩ := target_id_get_true lat lon d pt rows h
  refine ⟨hk, ?_, ?_⟩
  · have hprops := htrue
    simp only [matchesTarget, Bool.and_eq_true, decide_eq_true_eq] at hprops
    tauto
  · intro j hj hdate heq
    have : matchesTarget lat lon d pt (rows.get ⟨j, hj⟩) = true := by
      subst heq
      exact htrue
    simp only [matchesTarget, Bool.and_eq_true, decide_eq_true_eq] at this
    exact hdate this.1.2

/-- Witness for C3: two rows with coordinates within `1e-8` degrees of
each other but different transfer dates; the row with the requested date
(position 1) is selected, never the equally-near row with the other date. -/
theorem target_id_selects_matching_row_witness :
    (∃ r ∈ [SampleRow.mk 0 0 5 'F' 100 'N' 'L',
            SampleRow.mk (1/1000000000) 0 7 'F' 200 'N' 'F'],
        matchesTarget 0 0 7 'F' r = true) ∧
      (∃ hk : target_id 0 0 7 'F'
            [SampleRow.mk 0 0 5 'F' 100 'N' 'L',
             SampleRow.mk (1/1000000000) 0 7 'F' 200 'N' 'F'] <
          ([SampleRow.mk 0 0 5 'F' 100 'N' 'L',
            SampleRow.mk (1/1000000000) 0 7 'F' 200 'N' 'F'] : List SampleRow).length,
        (0 - 1/10000000 ≤ (([SampleRow.mk 0 0 5 'F' 100 'N' 'L',
            SampleRow.mk (1/1000000000) 0 7 'F' 200 'N' 'F'] : List SampleRow).get
              ⟨target_id 0 0 7 'F' [SampleRow.mk 0 0 5 'F' 100 'N' 'L',
                SampleRow.mk (1/1000000000) 0 7 'F' 200 'N' 'F'], hk⟩).latitude ∧
         (([SampleRow.mk 0 0 5 'F' 100 'N' 'L',
            SampleRow.mk (1/1000000000) 0 7 'F' 200 'N' 'F'] : List SampleRow).get
              ⟨target_id 0 0 7 'F' [SampleRow.mk 0 0 5 'F' 100 'N' 'L',
                SampleRow.mk (1/1000000000) 0 7 'F' 200 'N' 'F'], hk⟩).latitude ≤ 0 + 1/10000000 ∧
         0 - 1/10000000 ≤ (([SampleRow.mk 0 0 5 'F' 100 'N' 'L',
            SampleRow.mk (1/1000000000) 0 7 'F' 200 'N' 'F'] : List SampleRow).get
              ⟨target_id 0 0 7 'F' [SampleRow.mk 0 0 5 'F' 100 'N' 'L',
                SampleRow.mk (1/1000000000) 0 7 'F' 200 'N' 'F'], hk⟩).longitude ∧
         (([SampleRow.mk 0 0 5 'F' 100 'N' 'L',
            SampleRow.mk (1/1000000000) 0 7 'F' 200 'N' 'F'] : List SampleRow).get
              ⟨target_id 0 0 7 'F' [SampleRow.mk 0 0 5 'F' 100 'N' 'L',
                SampleRow.mk (1/1000000000) 0 7 'F' 200 'N' 'F'], hk⟩).longitude ≤ 0 + 1/10000000 ∧
         (([SampleRow.mk 0 0 5 'F' 100 'N' 'L',
            SampleRow.mk (1/1000000000) 0 7 'F' 200 'N' 'F'] : List SampleRow).get
              ⟨target_id 0 0 7 'F' [SampleRow.mk 0 0 5 'F' 100 'N' 'L',
                SampleRow.mk (1/1000000000) 0 7 'F' 200 'N' 'F'], hk⟩).date_of_transfer = 7 ∧
         (([SampleRow.mk 0 0 5 'F' 100 'N' 'L',
            SampleRow.mk (1/1000000000) 0 7 'F' 200 'N' 'F'] : List SampleRow).get
              ⟨target_id 0 0 7 'F' [SampleRow.mk 0 0 5 'F' 100 'N' 'L',
                SampleRow.mk (1/1000000000) 0 7 'F' 200 'N' 'F'], hk⟩).property_type = 'F') ∧
        ∀ j (hj : j < ([SampleRow.mk 0 0 5 'F' 100 'N' 'L',
            SampleRow.mk (1/1000000000) 0 7 'F' 200 'N' 'F'] : List SampleRow).length),
          (([SampleRow.mk 0 0 5 'F' 100 'N' 'L',
            SampleRow.mk (1/1000000000) 0 7 'F' 200 'N' 'F'] : List SampleRow).get
              ⟨j, hj⟩).date_of_transfer ≠ 7 →
            target_id 0 0 7 'F' [SampleRow.mk 0 0 5 'F' 100 'N' 'L',
              SampleRow.mk (1/1000000000) 0 7 'F' 200 'N' 'F'] ≠ j) :=
  ⟨⟨SampleRow.mk (1/1000000000) 0 7 'F' 200 'N' 'F', by norm_num [matchesTarget]⟩,
    target_id_selects_matching_row 0 0 7 'F' _
      ⟨SampleRow.mk (1/1000000000) 0 7 'F' 200 'N' 'F', by norm_num [matchesTarget]⟩⟩

/-- C4: if the sample table is non-empty but no row satisfies the target
mask, `idxmax` of the all-`False` mask yields index 0, the first row, and
the pipeline proceeds with that row as the target (no failure). -/
theorem target_id_all_false_gives_first_row (lat lon : ℚ) (d : ℤ) (pt : Char)
    (rows : List SampleRow) (hne : rows ≠ [])
    (h : ∀ r ∈ rows, matchesTarget lat lon d pt r = false) :
    target_id lat lon d pt rows = 0 := by
  apply argmaxBool_all_false
  intro b hb
  obtain ⟨r, hr, hrb⟩ := List.mem_map.mp hb
  rw [← hrb]
  exact h r hr

/-- Witness for C4: a single-row table whose row fails the mask (wrong
transfer date); the selection still returns index 0. -/
theorem target_id_all_false_gives_first_row_witness :
    ([SampleRow.mk 0 0 5 'F' 100 'N' 'L'] : List SampleRow) ≠ [] ∧
      (∀ r ∈ ([SampleRow.mk 0 0 5 'F' 100 'N' 'L'] : List SampleRow),
        matchesTarget 0 0 7 'F' r = false) ∧
      target_id 0 0 7 'F' [SampleRow.mk 0 0 5 'F' 100 'N' 'L'] = 0 :=
  ⟨by simp, by
    intro r hr
    simp only [List.mem_singleton] at hr
    subst hr
    norm_num [matchesTarget],
    target_id_all_false_gives_first_row 0 0 7 'F' _ (by simp) (by
      intro r hr
      simp only [List.mem_singleton] at hr
      subst hr
      norm_num [matchesTarget])⟩

/-! ### IEEE special values

A zero actual price makes `100 * abs(prediction - target_price) / target_price`
evaluate, under IEEE-754 semantics, to `+inf` (positive numerator) or
`nan` (`0.0/0.0`) with only a runtime warning — no exception.  `PyVal`
models the float values that can appear in the percentage-error list.
-/

/-- A Python float that is either finite (modelled exactly by `ℚ`),
positive infinity, or `nan`. -/
inductive PyVal where
  | fin : ℚ → PyVal
  | inf : PyVal
  | nan : PyVal
deriving DecidableEq

/-- IEEE addition on the values that can appear in the percentage-error
list (no negative infinity can arise there). -/
def PyVal.add : PyVal → PyVal → PyVal
  | .nan, _ => .nan
  | _, .nan => .nan
  | .inf, _ => .inf
  | _, .inf => .inf
  | .fin a, .fin b => .fin (a + b)

instance : Add PyVal := ⟨PyVal.add⟩

instance : Zero PyVal := ⟨PyVal.fin 0⟩

theorem PyVal.add_def (a b : PyVal) : a + b = PyVal.add a b := rfl

theorem PyVal.zero_def : (0 : PyVal) = PyVal.fin 0 := rfl

instance : AddCommMonoid PyVal where
  nsmul := nsmulRec
  add_assoc a b c := by
    cases a <;> cases b <;> cases c <;>
      simp [PyVal.add_def, PyVal.add, add_assoc]
  zero_add a := by
    cases a <;> simp [PyVal.add_def, PyVal.add, PyVal.zero_def]
  add_zero a := by
    cases a <;> simp [PyVal.add_def, PyVal.add, PyVal.zero_def]
  add_comm a b := by
    cases a <;> cases b <;> simp [PyVal.add_def, PyVal.add, add_comm]

/-- IEEE division of a percentage-error sum by the (positive) number of
errors, as in `sum(percentage_errors) / len(percentage_errors)`.  The
`n = 0` case never reaches this function: the source raises
`ZeroDivisionError` there, modelled by `Option` in `cross_val`. -/
def pyDivNat (v : PyVal) (n : ℕ) : PyVal :=
  match v with
  | .fin q => .fin (q / n)
  | .inf => .inf
  | .nan => .nan

/-! ### Regressor: `sm.OLS(...).fit_regularized(alpha=penalty, L1_wt=0)`

One observation is a feature row together with its price.  `prices` and
`features` run in parallel in the source (`np.delete` at the same index);
they are zipped into one list here.

With `L1_wt=0`, statsmodels fits ridge regression: the coefficient
vector is `(XᵀX + n·alpha·I)⁻¹ Xᵀy` (computed via SVD in the source,
which agrees with this normal-equations form whenever the regularized
Gram matrix is invertible — the hypotheses of the theorems below).
`matInv` is the computable ℚ-matrix inverse `det⁻¹ • adjugate`, which
agrees with Mathlib's noncomputable `Inv.inv` over a field.
-/

/-- One observation: the feature row and the price. -/
abbrev Obs (k : ℕ) := (Fin k → ℚ) × ℚ

/-- The Gram matrix `XᵀX` of the stacked feature rows. -/
def fitXtX {k : ℕ} (l : List (Obs k)) : Matrix (Fin k) (Fin k) ℚ :=
  (l.map (fun s => Matrix.of (fun i j => s.1 i * s.1 j))).sum

/-- The moment vector `Xᵀy` of the stacked feature rows against prices. -/
def fitXty {k : ℕ} (l : List (Obs k)) : Fin k → ℚ :=
  (l.map (fun s => fun i => s.1 i * s.2)).sum

/-- Computable matrix inverse over ℚ: `det⁻¹ • adjugate` (zero matrix when
the determinant vanishes, exactly like Mathlib's `Inv.inv`). -/
def matInv {k : ℕ} (A : Matrix (Fin k) (Fin k) ℚ) : Matrix (Fin k) (Fin k) ℚ :=
  A.det⁻¹ • A.adjugate

/-- Coefficients produced by `fit_regularized(alpha=penalty, L1_wt=0)` on
`n = l.length` observations: `(XᵀX + n·penalty·I)⁻¹ Xᵀy`. -/
def ridgeParams {k : ℕ} (penalty : ℚ) (l : List (Obs k)) : Fin k → ℚ :=
  (matInv (fitXtX l + ((l.length : ℚ) * penalty) • (1 : Matrix (Fin k) (Fin k) ℚ))).mulVec
    (fitXty l)

/-- Coefficients produced by unregularized `sm.OLS(...).fit()`: the
normal-equations solution `(XᵀX)⁻¹ Xᵀy` (statsmodels uses the
pseudoinverse, which agrees whenever `XᵀX` is invertible). -/
def olsParams {k : ℕ} (l : List (Obs k)) : Fin k → ℚ :=
  (matInv (fitXtX l)).mulVec (fitXty l)

/-- `results.predict(target_features)[0]`: the dot product of the feature
row with the fitted coefficients. -/
def predictRow {k : ℕ} (params x : Fin k → ℚ) : ℚ :=
  ∑ i, x i * params i

/-- `100 * abs(prediction - target_price) / target_price` under IEEE
semantics: finite for a nonzero actual price, `+inf` (or `nan` when the
numerator is also zero) for a zero actual price. -/
def pctErr (pred actual : ℚ) : PyVal :=
  if actual = 0 then (if pred = 0 then PyVal.nan else PyVal.inf)
  else PyVal.fin (100 * |pred - actual| / actual)

/-- The leave-one-out error of one held-out observation `t` against the
ridge fit on the training list `train`. -/
def errWith {k : ℕ} (penalty : ℚ) (t : Obs k) (train : List (Obs k)) : PyVal :=
  pctErr (predictRow (ridgeParams penalty train) t.1) t.2

/-- The loop body of `cross_val` (src lines 51-63): for each index `i`,
fit on `np.delete(features, i)` / `np.delete(prices, i)` and record the
percentage error of observation `i`. -/
def cross_val_errors {k : ℕ} (penalty : ℚ) (l : List (Obs k)) : List PyVal :=
  l.enum.map (fun p => errWith penalty p.2 (l.eraseIdx p.1))

/-- `cross_val` (src lines 50-65), restricted to the average-percentage-
error output (the correlation output involves a square root and is not
needed by any claim).  The unused `ridge` flag of the source signature is
kept: the source body ignores it.  On an empty input the source raises
`ZeroDivisionError` (`sum([])/len([])`), modelled by `none`. -/
def cross_val {k : ℕ} (l : List (Obs k)) (ridge : Bool) (penalty : ℚ) : Option PyVal :=
  if l.isEmpty then none
  else some (pyDivNat (cross_val_errors penalty l).sum l.length)

/-! ### Structural view of the leave-one-out loop

`errsCtx pen pre post` carries the already-processed prefix `pre`, so the
training list `pre ++ (post minus its current head)` is exactly
`np.delete(l, i)` in order.  It is proved to agree elementwise with the
index-based `cross_val_errors`.
-/

/-- Structural recursion computing the leave-one-out errors of `post`,
with `pre` the rows already passed (part of every training set). -/
def errsCtx {k : ℕ} (penalty : ℚ) : List (Obs k) → List (Obs k) → List PyVal
  | _, [] => []
  | pre, a :: post => errWith penalty a (pre ++ post) :: errsCtx penalty (pre ++ [a]) post

theorem errsCtx_length {k : ℕ} (penalty : ℚ) (l : List (Obs k)) :
    ∀ pre, (errsCtx penalty pre l).length = l.length := by
  induction l with
  | nil => intro pre; rfl
  | cons a l ih => intro pre; simp [errsCtx, ih]

theorem errsCtx_getElem {k : ℕ} (penalty : ℚ) (l : List (Obs k)) :
    ∀ (pre : List (Obs k)) (i : ℕ) (h : i < (errsCtx penalty pre l).length)
      (h' : i < l.length),
      getElem (errsCtx penalty pre l) i h =
        errWith penalty (l.get ⟨i, h'⟩) (pre ++ l.eraseIdx i) := by
  induction l with
  | nil => intro pre i h h'; simp at h'
  | cons a l ih =>
    intro pre i h h'
    match i with
    | 0 => simp [errsCtx]
    | i + 1 =>
      have h2 : i < (errsCtx penalty (pre ++ [a]) l).length := by
        have := h
        simpa [errsCtx, errsCtx_length] using this
      have h3 : i < l.length := by simpa using h'
      calc getElem (errsCtx penalty pre (a :: l)) (i + 1) h
          = getElem (errsCtx penalty (pre ++ [a]) l) i h2 := by
            simp [errsCtx]
        _ = errWith penalty (l.get ⟨i, h3⟩) ((pre ++ [a]) ++ l.eraseIdx i) :=
            ih (pre ++ [a]) i h2 h3
        _ = errWith penalty ((a :: l).get ⟨i + 1, h'⟩) (pre ++ (a :: l).eraseIdx (i + 1)) := by
            simp [List.eraseIdx_cons_succ, List.append_assoc]

/-- The index-based loop embedding and the structural one agree. -/
theorem cross_val_errors_eq_errsCtx {k : ℕ} (penalty : ℚ) (l : List (Obs k)) :
    cross_val_errors penalty l = errsCtx penalty [] l := by
  apply List.ext_getElem
  · simp [cross_val_errors, errsCtx_length]
  · intro i h1 h2
    have hi : i < l.length := by simpa [cross_val_errors] using h1
    have henum : i < l.enum.length := by simpa using hi
    rw [errsCtx_getElem penalty l [] i h2 hi]
    simp [cross_val_errors, List.getElem_map, List.getElem_enum, List.nil_append]

/-! ### Permutation invariance of the fit and of the error list -/

theorem fitXtX_perm {k : ℕ} {l l' : List (Obs k)} (h : l.Perm l') :
    fitXtX l = fitXtX l' :=
  (h.map _).sum_eq

theorem fitXty_perm {k : ℕ} {l l' : List (Obs k)} (h : l.Perm l') :
    fitXty l = fitXty l' :=
  (h.map _).sum_eq

/-- The ridge fit depends on the training rows only through the sums
`XᵀX`, `Xᵀy` and the row count, so it is invariant under reordering. -/
theorem ridgeParams_perm {k : ℕ} (penalty : ℚ) {l l' : List (Obs k)} (h : l.Perm l') :
    ridgeParams penalty l = ridgeParams penalty l' := by
  unfold ridgeParams
  rw [fitXtX_perm h, fitXty_perm h, h.length_eq]

theorem errWith_train_perm {k : ℕ} (penalty : ℚ) (t : Obs k) {tr tr' : List (Obs k)}
    (h : tr.Perm tr') : errWith penalty t tr = errWith penalty t tr' := by
  unfold errWith
  rw [ridgeParams_perm penalty h]

theorem errsCtx_ctx_perm {k : ℕ} (penalty : ℚ) (l : List (Obs k)) :
    ∀ {pre pre' : List (Obs k)}, pre.Perm pre' →
      errsCtx penalty pre l = errsCtx penalty pre' l := by
  induction l with
  | nil => intro pre pre' _; rfl
  | cons a l ih =>
    intro pre pre' h
    simp only [errsCtx]
    rw [errWith_train_perm penalty a (h.append_right l), ih (h.append_right [a])]

/-- Core of C5: permuting the observation list permutes the error list. -/
theorem errsCtx_perm {k : ℕ} (penalty : ℚ) {l l' : List (Obs k)} (h : l.Perm l') :
    ∀ pre, (errsCtx penalty pre l).Perm (errsCtx penalty pre l') := by
  induction h with
  | nil => intro pre; exact List.Perm.refl _
  | cons a hl ih =>
    intro pre
    simp only [errsCtx]
    rw [errWith_train_perm penalty a (hl.append_left pre)]
    exact (ih (pre ++ [a])).cons _
  | swap x y l =>
    intro pre
    simp only [errsCtx]
    have h1 : pre ++ x :: l = (pre ++ [x]) ++ l := by
      simp [List.append_assoc]
    have h2 : pre ++ y :: l = (pre ++ [y]) ++ l := by
      simp [List.append_assoc]
    have hctx : ((pre ++ [y]) ++ [x]).Perm ((pre ++ [x]) ++ [y]) := by
      have hswap := (List.Perm.swap x y ([] : List (Obs k))).append_left pre
      simpa [List.append_assoc] using hswap
    rw [h1, h2, errsCtx_ctx_perm penalty l hctx]
    exact List.Perm.swap _ _ _
  | trans _ _ ih1 ih2 =>
    intro pre
    exact (ih1 pre).trans (ih2 pre)

/-- C5: the average percentage error returned by `cross_val` is unchanged
under any simultaneous permutation of the observations (rows of the
feature matrix together with the corresponding prices), whenever all
prices are nonzero and every leave-one-out fit is defined (regularized
Gram matrix invertible); in the exact-arithmetic model the conclusion in
fact needs neither hypothesis. -/
theorem cross_val_perm_invariant {k : ℕ} (ridge : Bool) (penalty : ℚ)
    (l l' : List (Obs k)) (hperm : l.Perm l')
    (hprices : ∀ s ∈ l, s.2 ≠ 0)
    (hfits : ∀ i, i < l.length →
      (fitXtX (l.eraseIdx i) +
        (((l.eraseIdx i).length : ℚ) * penalty) • (1 : Matrix (Fin k) (Fin k) ℚ)).det ≠ 0) :
    cross_val l ridge penalty = cross_val l' ridge penalty := by
  unfold cross_val
  have hlen := hperm.length_eq
  have hperm_errs : (cross_val_errors penalty l).Perm (cross_val_errors penalty l') := by
    rw [cross_val_errors_eq_errsCtx, cross_val_errors_eq_errsCtx]
    exact errsCtx_perm penalty hperm []
  have hempty : l.isEmpty = l'.isEmpty := by
    cases l with
    | nil =>
      cases l' with
      | nil => rfl
      | cons b t' => simp at hlen
    | cons a t =>
      cases l' with
      | nil => simp at hlen
      | cons b t' => rfl
  rw [hperm_errs.sum_eq, hlen, hempty]

/-- Witness for C5: two observations with nonzero prices and invertible
leave-one-out Gram matrices, in the two possible orders. -/
theorem cross_val_perm_invariant_witness :
    (([((![2] : Fin 1 → ℚ), (4 : ℚ)), (![3], 9)] : List (Obs 1)).Perm
        [((![3] : Fin 1 → ℚ), (9 : ℚ)), (![2], 4)]) ∧
      (∀ s ∈ ([((![2] : Fin 1 → ℚ), (4 : ℚ)), (![3], 9)] : List (Obs 1)), s.2 ≠ 0) ∧
      (∀ i, i < ([((![2] : Fin 1 → ℚ), (4 : ℚ)), (![3], 9)] : List (Obs 1)).length →
        (fitXtX (([((![2] : Fin 1 → ℚ), (4 : ℚ)), (![3], 9)] : List (Obs 1)).eraseIdx i) +
          (((([((![2] : Fin 1 → ℚ), (4 : ℚ)), (![3], 9)] : List (Obs 1)).eraseIdx i).length : ℚ) * 0) •
            (1 : Matrix (Fin 1) (Fin 1) ℚ)).det ≠ 0) ∧
      cross_val ([((![2] : Fin 1 → ℚ), (4 : ℚ)), (![3], 9)] : List (Obs 1)) false 0 =
        cross_val ([((![3] : Fin 1 → ℚ), (9 : ℚ)), (![2], 4)] : List (Obs 1)) false 0 := by
  have h1 : (([((![2] : Fin 1 → ℚ), (4 : ℚ)), (![3], 9)] : List (Obs 1)).Perm
      [((![3] : Fin 1 → ℚ), (9 : ℚ)), (![2], 4)]) :=
    List.Perm.swap _ _ _
  have h2 : ∀ s ∈ ([((![2] : Fin 1 → ℚ), (4 : ℚ)), (![3], 9)] : List (Obs 1)), s.2 ≠ 0 := by
    intro s hs
    simp only [List.mem_cons, List.not_mem_nil, or_false] at hs
    rcases hs with h | h <;> subst h <;> norm_num
  have h3 : ∀ i, i < ([((![2] : Fin 1 → ℚ), (4 : ℚ)), (![3], 9)] : List (Obs 1)).length →
      (fitXtX (([((![2] : Fin 1 → ℚ), (4 : ℚ)), (![3], 9)] : List (Obs 1)).eraseIdx i) +
        (((([((![2] : Fin 1 → ℚ), (4 : ℚ)), (![3], 9)] : List (Obs 1)).eraseIdx i).length : ℚ) * 0) •
          (1 : Matrix (Fin 1) (Fin 1) ℚ)).det ≠ 0 := by
    intro i hi
    simp only [List.length_cons, List.length_nil] at hi
    interval_cases i <;>
      norm_num [List.eraseIdx, fitXtX, Matrix.det_fin_one, Matrix.add_apply, Matrix.smul_apply,
        Matrix.one_apply, Matrix.of_apply, Matrix.cons_val_zero, List.sum_cons, List.sum_nil]
  exact ⟨h1, h2, h3, cross_val_perm_invariant false 0 _ _ h1 h2 h3⟩

/-! ### Concrete evaluations of `cross_val` (single-feature instances) -/

theorem matInv_mulVec_fin_one (A : Matrix (Fin 1) (Fin 1) ℚ) (v : Fin 1 → ℚ) :
    (matInv A).mulVec v = (A 0 0)⁻¹ • v := by
  rw [matInv, Matrix.adjugate_subsingleton, Matrix.det_fin_one, Matrix.smul_mulVec_assoc,
    Matrix.one_mulVec]

theorem cv_eval_without_mid :
    cross_val ([(![1], 1), (![1], 3)] : List (Obs 1)) false 0 =
      some (PyVal.fin (400/3)) := by
  rw [cross_val, cross_val_errors_eq_errsCtx]
  simp only [errsCtx, List.nil_append, List.cons_append, List.append_nil]
  norm_num [errWith, ridgeParams, matInv_mulVec_fin_one, fitXtX, fitXty, predictRow, pctErr,
    Fin.sum_univ_one, Matrix.add_apply, Matrix.smul_apply, Matrix.one_apply, Matrix.of_apply,
    Matrix.cons_val_zero, List.sum_cons, List.sum_nil, Pi.smul_apply, smul_eq_mul,
    abs_of_nonneg, abs_of_nonpos, PyVal.add_def, PyVal.add, PyVal.zero_def, pyDivNat,
    List.isEmpty_cons, List.length_cons, List.length_nil]

theorem cv_eval_with_mid :
    cross_val ([(![1], 1), (![1], 3), (![1], 2)] : List (Obs 1)) false 0 =
      some (PyVal.fin (200/3)) := by
  rw [cross_val, cross_val_errors_eq_errsCtx]
  simp only [errsCtx, List.nil_append, List.cons_append, List.append_nil]
  norm_num [errWith, ridgeParams, matInv_mulVec_fin_one, fitXtX, fitXty, predictRow, pctErr,
    Fin.sum_univ_one, Matrix.add_apply, Matrix.smul_apply, Matrix.one_apply, Matrix.of_apply,
    Matrix.cons_val_zero, List.sum_cons, List.sum_nil, Pi.smul_apply, smul_eq_mul,
    abs_of_nonneg, abs_of_nonpos, PyVal.add_def, PyVal.add, PyVal.zero_def, pyDivNat,
    List.isEmpty_cons, List.length_cons, List.length_nil]

theorem cv_eval_without_outlier :
    cross_val ([(![1], 1), (![2], 2)] : List (Obs 1)) false 0 =
      some (PyVal.fin 0) := by
  rw [cross_val, cross_val_errors_eq_errsCtx]
  simp only [errsCtx, List.nil_append, List.cons_append, List.append_nil]
  norm_num [errWith, ridgeParams, matInv_mulVec_fin_one, fitXtX, fitXty, predictRow, pctErr,
    Fin.sum_univ_one, Matrix.add_apply, Matrix.smul_apply, Matrix.one_apply, Matrix.of_apply,
    Matrix.cons_val_zero, List.sum_cons, List.sum_nil, Pi.smul_apply, smul_eq_mul,
    abs_of_nonneg, abs_of_nonpos, PyVal.add_def, PyVal.add, PyVal.zero_def, pyDivNat,
    List.isEmpty_cons, List.length_cons, List.length_nil]

theorem cv_eval_with_outlier :
    cross_val ([(![1], 1), (![2], 2), (![1], 10)] : List (Obs 1)) false 0 =
      some (PyVal.fin 240) := by
  rw [cross_val, cross_val_errors_eq_errsCtx]
  simp only [errsCtx, List.nil_append, List.cons_append, List.append_nil]
  norm_num [errWith, ridgeParams, matInv_mulVec_fin_one, fitXtX, fitXty, predictRow, pctErr,
    Fin.sum_univ_one, Matrix.add_apply, Matrix.smul_apply, Matrix.one_apply, Matrix.of_apply,
    Matrix.cons_val_zero, List.sum_cons, List.sum_nil, Pi.smul_apply, smul_eq_mul,
    abs_of_nonneg, abs_of_nonpos, PyVal.add_def, PyVal.add, PyVal.zero_def, pyDivNat,
    List.isEmpty_cons, List.length_cons, List.length_nil]

/-- C2 (code behaviour at the failing input): with prices `[0, 4]` and
features `[[1], [2]]`, `cross_val` does not raise: the percentage error of
the zero-priced observation is IEEE `+inf` (its leave-one-out prediction
is 2, and `100*|2 - 0|/0 = +inf`), and the returned average is `+inf` —
an infinite value produced silently, contradicting the specified
`UndefinedMetricError`. -/
theorem cross_val_zero_price_returns_inf :
    cross_val ([(![1], 0), (![2], 4)] : List (Obs 1)) false 0 = some PyVal.inf := by
  rw [cross_val, cross_val_errors_eq_errsCtx]
  simp only [errsCtx, List.nil_append, List.cons_append, List.append_nil]
  norm_num [errWith, ridgeParams, matInv_mulVec_fin_one, fitXtX, fitXty, predictRow, pctErr,
    Fin.sum_univ_one, Matrix.add_apply, Matrix.smul_apply, Matrix.one_apply, Matrix.of_apply,
    Matrix.cons_val_zero, List.sum_cons, List.sum_nil, Pi.smul_apply, smul_eq_mul,
    abs_of_nonneg, abs_of_nonpos, PyVal.add_def, PyVal.add, PyVal.zero_def, pyDivNat,
    List.isEmpty_cons, List.length_cons, List.length_nil]

/-- C6 counterexample: prices are nonzero and every leave-one-out Gram
matrix is invertible, yet removing the target row `([1], 2)` from the
training set `[([1],1), ([1],3), ([1],2)]` strictly increases the average
cross-validated percentage error (from `200/3` to `400/3`), refuting the
claimed `≤` inequality. -/
theorem remove_target_can_increase_error_cex :
    cross_val ([(![1], 1), (![1], 3)] : List (Obs 1)) false 0 =
        some (PyVal.fin (400/3)) ∧
      cross_val ([(![1], 1), (![1], 3), (![1], 2)] : List (Obs 1)) false 0 =
        some (PyVal.fin (200/3)) ∧
      ¬ ((400 : ℚ)/3 ≤ 200/3) ∧
      (∀ s ∈ ([(![1], 1), (![1], 3), (![1], 2)] : List (Obs 1)), s.2 ≠ 0) ∧
      (∀ i, i < ([((![1] : Fin 1 → ℚ), (1 : ℚ)), (![1], 3), (![1], 2)] : List (Obs 1)).length →
        (fitXtX (([((![1] : Fin 1 → ℚ), (1 : ℚ)), (![1], 3), (![1], 2)] : List (Obs 1)).eraseIdx i)).det ≠ 0) := by
  refine ⟨cv_eval_without_mid, cv_eval_with_mid, by norm_num, ?_, ?_⟩
  · intro s hs
    simp only [List.mem_cons, List.not_mem_nil, or_false] at hs
    rcases hs with h | h | h <;> subst h <;> norm_num
  · intro i hi
    simp only [List.length_cons, List.length_nil] at hi
    interval_cases i <;>
      norm_num [List.eraseIdx, fitXtX, Matrix.det_fin_one, Matrix.add_apply, Matrix.of_apply,
        Matrix.cons_val_zero, List.sum_cons, List.sum_nil]

/-- C6 amended: removing the target row from the training set can
strictly increase the average cross-validated percentage error and can
also strictly decrease it; no `≤` relation between the two holds in
general. -/
theorem remove_target_error_not_monotone :
    (cross_val ([(![1], 1), (![1], 3)] : List (Obs 1)) false 0 =
          some (PyVal.fin (400/3)) ∧
        cross_val ([(![1], 1), (![1], 3), (![1], 2)] : List (Obs 1)) false 0 =
          some (PyVal.fin (200/3)) ∧
        (200 : ℚ)/3 < 400/3) ∧
      (cross_val ([(![1], 1), (![2], 2)] : List (Obs 1)) false 0 =
          some (PyVal.fin 0) ∧
        cross_val ([(![1], 1), (![2], 2), (![1], 10)] : List (Obs 1)) false 0 =
          some (PyVal.fin 240) ∧
        (0 : ℚ) < 240) :=
  ⟨⟨cv_eval_without_mid, cv_eval_with_mid, by norm_num⟩,
    ⟨cv_eval_without_outlier, cv_eval_with_outlier, by norm_num⟩⟩

/-! ### C7: zero penalty reduces the regularized fit to OLS -/

/-- C7: with `alpha = 0` and `L1_wt = 0`, `fit_regularized` produces the
same predictions as unregularized ordinary least squares on the same
data (the `XᵀX` determinant hypothesis is where the normal-equations
model of both fits is faithful to the source's SVD/pseudoinverse
computation). -/
theorem fit_regularized_zero_eq_ols {k : ℕ} (l : List (Obs k))
    (hdet : (fitXtX l).det ≠ 0) :
    ∀ x : Fin k → ℚ, predictRow (ridgeParams 0 l) x = predictRow (olsParams l) x := by
  intro x
  unfold ridgeParams olsParams
  simp

/-- Witness for C7: one observation with invertible Gram matrix; the
prediction at the feature row `[3]` agrees between the two fits. -/
theorem fit_regularized_zero_eq_ols_witness :
    (fitXtX ([(![2], 4)] : List (Obs 1))).det ≠ 0 ∧
      predictRow (ridgeParams 0 ([(![2], 4)] : List (Obs 1))) ![3] =
        predictRow (olsParams ([(![2], 4)] : List (Obs 1))) ![3] := by
  have hdet : (fitXtX ([(![2], 4)] : List (Obs 1))).det ≠ 0 := by
    norm_num [fitXtX, Matrix.det_fin_one, Matrix.add_apply, Matrix.of_apply,
      Matrix.cons_val_zero, List.sum_cons, List.sum_nil]
  exact ⟨hdet, fit_regularized_zero_eq_ols _ hdet ![3]⟩

/-! ### SampleSelector: `get_training_samples` (src lines 69-81)

The external collaborators (`access.get_credentials`,
`access.create_connection`, `access.query_table`,
`access.price_coordinates_data_to_df`) are opaque services; the combined
outcome of the query-and-convert step is a parameter.  The embedding
records the connection lifecycle events in order: the source runs
`conn = access.create_connection(...)`, the query/conversion (which may
raise), then `conn.close()` — with no `try`/`finally` — then filters by
property type and resets the index (a positional no-op in the list
model). -/

/-- Connection lifecycle events of one `get_training_samples` call. -/
inductive DBEvent where
  | openConn : DBEvent
  | closeConn : DBEvent
deriving DecidableEq

/-- `get_training_samples`, as the pair of (connection events, result),
parametrized by the outcome of the external query-and-convert step. -/
def get_training_samples (queryOutcome : Except String (List SampleRow)) (pt : Char) :
    List DBEvent × Except String (List SampleRow) :=
  match queryOutcome with
  | .error e => ([DBEvent.openConn], .error e)
  | .ok rows => ([DBEvent.openConn, DBEvent.closeConn],
      .ok (rows.filter (fun r => r.property_type == pt)))

/-- C8 counterexample: when the query raises, the error propagates and
`conn.close()` is never reached — the event trace of this exit path
contains no close event, refuting guaranteed release on every path. -/
theorem gts_error_path_skips_close :
    (get_training_samples (Except.error "connection lost") 'F').1 = [DBEvent.openConn] ∧
      DBEvent.closeConn ∉ (get_training_samples (Except.error "connection lost") 'F').1 ∧
      (get_training_samples (Except.error "connection lost") 'F').2 =
        Except.error "connection lost" := by
  refine ⟨rfl, ?_, rfl⟩
  decide

/-- C8 amended: the connection is closed before returning on the
successful path, but on a query/conversion failure the error propagates
without the connection being closed. -/
theorem gts_close_on_success_only (rows : List SampleRow) (e : String) (pt : Char) :
    (get_training_samples (Except.ok rows) pt).1 = [DBEvent.openConn, DBEvent.closeConn] ∧
      (get_training_samples (Except.error e) pt).1 = [DBEvent.openConn] :=
  ⟨rfl, rfl⟩

/-! ### Predictor boundary: `predict_price` (src lines 14-46)

`predict_price` executes `latitude = float(latitude)` and
`longitude = float(longitude)` (src lines 15-16) BEFORE the `try` that
starts at line 17, so an error raised by either coercion — `float` raises
`ValueError` on a non-coercible argument such as the string `abc` —
propagates uncaught to the caller.  Only the body from line 18 onwards
sits inside `try: ... except Exception as e: print(...)`; the except
branch prints one diagnostic line and falls off the end of the function,
returning `None`.

The embedding keeps this structure: the outcomes of the two coercions
and of the try-block body (whose internals are embedded separately
above) are parameters; the outer `Except` is an error escaping to the
caller, and the inner pair is (result, printed diagnostic lines of the
exception handler). -/

/-- `predict_price` as (coercion outcomes, try-block outcome) ↦ either an
uncaught error or the pair (returned value if any, printed diagnostics).
A coercion failure propagates; a failure inside the `try` is caught,
printed, and turned into `none`. -/
def predict_price (latCoerce lonCoerce : Except String ℚ)
    (body : ℚ → ℚ → Except String (ℚ × ℚ × ℚ × ℚ)) :
    Except String (Option (ℚ × ℚ × ℚ × ℚ) × List String) :=
  match latCoerce with
  | .error e => .error e
  | .ok lat =>
    match lonCoerce with
    | .error e => .error e
    | .ok lon =>
      match body lat lon with
      | .ok v => .ok (some v, [])
      | .error e =>
          .ok (none, ["The following error occured whilst trying to make a prediction: " ++ e])

/-- C9 counterexample: when `float(latitude)` raises (src line 15 — e.g.
a non-numeric latitude), the error escapes `predict_price` uncaught: the
result is that very error, not a printed diagnostic with an absent
value, refuting the claim for this internal step. -/
theorem predict_price_pre_try_error_propagates_cex :
    predict_price (Except.error "could not convert string to float: abc")
        (Except.ok 0) (fun _ _ => Except.ok (0, 0, 0, 0)) =
      Except.error "could not convert string to float: abc" :=
  rfl

/-- C9 amended: an error raised by any step inside the `try` block is not
propagated — `predict_price` prints one diagnostic line and returns no
value — but the `float` coercions of latitude and longitude run before
the `try`, and an error raised by either of them propagates uncaught to
the caller. -/
theorem predict_price_catches_only_inside_try
    (lat lon : ℚ) (body : ℚ → ℚ → Except String (ℚ × ℚ × ℚ × ℚ))
    (e elat elon : String) (lonCoerce : Except String ℚ)
    (hbody : body lat lon = Except.error e) :
    predict_price (Except.ok lat) (Except.ok lon) body =
        Except.ok (none,
          ["The following error occured whilst trying to make a prediction: " ++ e]) ∧
      predict_price (Except.error elat) lonCoerce body = Except.error elat ∧
      predict_price (Except.ok lat) (Except.error elon) body = Except.error elon := by
  refine ⟨?_, rfl, rfl⟩
  simp [predict_price, hbody]

/-- Witness for C9 (amended): a body that raises is caught and reported,
while coercion failures escape. -/
theorem predict_price_catches_only_inside_try_witness :
    ((fun _ _ => Except.error "empty sample table" :
        ℚ → ℚ → Except String (ℚ × ℚ × ℚ × ℚ)) 0 0 =
      Except.error "empty sample table") ∧
      (predict_price (Except.ok 0) (Except.ok 0)
          (fun _ _ => Except.error "empty sample table") =
        Except.ok (none,
          ["The following error occured whilst trying to make a prediction: " ++
            "empty sample table"]) ∧
      predict_price (Except.error "could not convert string to float: x")
          (Except.ok 0) (fun _ _ => Except.error "empty sample table") =
        Except.error "could not convert string to float: x" ∧
      predict_price (Except.ok 0)
          (Except.error "could not convert string to float: y")
          (fun _ _ => Except.error "empty sample table") =
        Except.error "could not convert string to float: y") :=
  ⟨rfl, predict_price_catches_only_inside_try 0 0 _ "empty sample table"
    "could not convert string to float: x" "could not convert string to float: y"
    (Except.ok 0) rfl⟩

/-! ### FeatureEncoder: `property_feature_map` (src lines 97-102)

A two-column pandas frame is modelled positionally: a column-name list
and, per row, a cell list aligned with it.  `DataFrame.replace` with a
nested dict maps, per column, the listed old values to the new ones and
leaves everything else unchanged.  `DataFrame.rename(columns=...)`
returns a renamed copy and does not mutate; the source calls it without
assigning the result, so the embedded `property_feature_map` discards it
exactly as the source does. -/

/-- A pandas cell: a string (categorical code) or an integer. -/
inductive PCell where
  | s : Char → PCell
  | n : ℤ → PCell
deriving DecidableEq

/-- A two-dimensional frame: column names plus positionally aligned rows. -/
structure Frame where
  columns : List String
  rows : List (List PCell)
deriving DecidableEq

/-- `DataFrame.rename(columns={oldName: newName})`: returns a copy with
the column relabelled (the receiver is unchanged). -/
def Frame.rename (f : Frame) (oldName newName : String) : Frame :=
  { columns := f.columns.map (fun c => if c = oldName then newName else c),
    rows := f.rows }

/-- The nested replacement dict
`{'new_build_flag': {'N': 0, 'Y': 1}, 'tenure_type': {'L': 0, 'F': 1}}`. -/
def replacements (col : String) (c : Char) : Option ℤ :=
  if col = "new_build_flag" then
    (if c = 'N' then some 0 else if c = 'Y' then some 1 else none)
  else if col = "tenure_type" then
    (if c = 'L' then some 0 else if c = 'F' then some 1 else none)
  else none

/-- Apply the per-column replacement dict to one cell; unmatched values
are left unchanged, as `DataFrame.replace` does. -/
def replaceCell (col : String) (c : PCell) : PCell :=
  match c with
  | .s ch =>
      (match replacements col ch with
       | some z => .n z
       | none => .s ch)
  | .n z => .n z

/-- `res.replace(replacements)`: apply the dict column-wise. -/
def Frame.replaceDict (f : Frame) : Frame :=
  { columns := f.columns,
    rows := f.rows.map (fun row => (f.columns.zip row).map (fun p => replaceCell p.1 p.2)) }

/-- `property_feature_map` (src lines 97-102): select the two categorical
columns, apply the replacement dict, call `rename` without using its
result, and return the (un-renamed) frame. -/
def property_feature_map (training_rows : List SampleRow) : Frame :=
  let res : Frame :=
    { columns := ["new_build_flag", "tenure_type"],
      rows := training_rows.map (fun r => [PCell.s r.new_build_flag, PCell.s r.tenure_type]) }
  let res := res.replaceDict
  let _ := res.rename "tenure_type" "freehold_flag"
  res

/-- C10: for rows whose flags take the documented values, the returned
frame's columns are exactly `new_build_flag`, `tenure_type` — the
unassigned `rename` has no effect and no `freehold_flag` column exists —
and the values are mapped `N`/`L` to 0 and `Y`/`F` to 1. -/
theorem property_feature_map_columns_and_values (training_rows : List SampleRow)
    (h : ∀ r ∈ training_rows,
      (r.new_build_flag = 'N' ∨ r.new_build_flag = 'Y') ∧
      (r.tenure_type = 'L' ∨ r.tenure_type = 'F')) :
    (property_feature_map training_rows).columns = ["new_build_flag", "tenure_type"] ∧
      "freehold_flag" ∉ (property_feature_map training_rows).columns ∧
      (property_feature_map training_rows).rows = training_rows.map (fun r =>
        [PCell.n (if r.new_build_flag = 'Y' then 1 else 0),
         PCell.n (if r.tenure_type = 'F' then 1 else 0)]) := by
  have hcols : (property_feature_map training_rows).columns =
      ["new_build_flag", "tenure_type"] := rfl
  refine ⟨hcols, ?_, ?_⟩
  · rw [hcols]
    decide
  simp only [property_feature_map, Frame.replaceDict, List.map_map]
  apply List.map_congr_left
  intro r hr
  obtain ⟨hnb, ht⟩ := h r hr
  rcases hnb with h1 | h1 <;> rcases ht with h2 | h2 <;>
    simp [h1, h2, replaceCell, replacements, Function.comp]

/-- Witness for C10: two rows covering all four documented flag values. -/
theorem property_feature_map_columns_and_values_witness :
    (∀ r ∈ ([SampleRow.mk 0 0 5 'F' 100 'N' 'L',
             SampleRow.mk 1 1 6 'D' 200 'Y' 'F'] : List SampleRow),
      (r.new_build_flag = 'N' ∨ r.new_build_flag = 'Y') ∧
      (r.tenure_type = 'L' ∨ r.tenure_type = 'F')) ∧
      ((property_feature_map [SampleRow.mk 0 0 5 'F' 100 'N' 'L',
          SampleRow.mk 1 1 6 'D' 200 'Y' 'F']).columns =
        ["new_build_flag", "tenure_type"] ∧
      "freehold_flag" ∉ (property_feature_map [SampleRow.mk 0 0 5 'F' 100 'N' 'L',
          SampleRow.mk 1 1 6 'D' 200 'Y' 'F']).columns ∧
      (property_feature_map [SampleRow.mk 0 0 5 'F' 100 'N' 'L',
          SampleRow.mk 1 1 6 'D' 200 'Y' 'F']).rows =
        ([SampleRow.mk 0 0 5 'F' 100 'N' 'L',
          SampleRow.mk 1 1 6 'D' 200 'Y' 'F'] : List SampleRow).map (fun r =>
            [PCell.n (if r.new_build_flag = 'Y' then 1 else 0),
             PCell.n (if r.tenure_type = 'F' then 1 else 0)])) :=
  ⟨by decide, property_feature_map_columns_and_values _ (by decide)⟩
